import Mathlib

/-!
Verification development for the up-cpp transport abstraction and
message-identity layer.

The development shallowly embeds:
* the UUIDv8 identifier generator (`build`), its constants and its
  builder-mode gating (modelled from the spec, since the builder
  implementation sources are not part of this tree);
* the `UTransport` contract layer together with the `UTransportMock`
  test double (the mock's hooks are translated from
  `test/include/UTransportMock.h`; the contract layer is modelled from
  the spec);
* the `UPayload` byte-buffer wrapper (`include/up-cpp/transport/datamodel/UPayload.h`);
* the `BaseSafeMap` copy/move-constructor locking protocol
  (`include/up-cpp/utils/SafeMap.h`).
-/

/-! ## UUID generator constants

Modelled from the spec: the constants of `datamodel/constants/UuidConstants.h`
(not present in this tree), pinned by the expectations in
`UuidBuilderTest.cpp` and the `make_uuid` helper of `UTransportTest.cpp`:
high word is `(timestamp << 16) | (8 << 12) | counter`, low word carries the
RFC 4122 variant `2` in its top two bits above 62 random bits. -/

def UUID_TIMESTAMP_SHIFT : Nat := 16

def UUID_VERSION_SHIFT : Nat := 12

def UUID_VERSION_MASK : Nat := 0xF

def UUID_VERSION_8 : Nat := 8

def UUID_COUNTER_MASK : Nat := 0xFFF

def UUID_COUNTER_MAX : Nat := 4095

def UUID_VARIANT_SHIFT : Nat := 62

def UUID_VARIANT_MASK : Nat := 0x3

def UUID_VARIANT_RFC4122 : Nat := 2

def UUID_RANDOM_MASK : Nat := 2 ^ 62 - 1

/-- A 128-bit identifier as two 64-bit machine words (`v1::UUID`). -/
structure UUID where
  msb : Nat
  lsb : Nat
deriving DecidableEq, Repr

/-- Generator state: timestamp of last issuance plus the current counter
(spec section 3, GeneratorState). -/
structure UuidState where
  lastTimestamp : Nat
  counter : Nat
deriving DecidableEq, Repr

/-- Modelled from the spec: steps 2 and 3 of the `build()` issuance
algorithm. If `now` equals the recorded timestamp the stored counter is
incremented unless it is already at the 12-bit maximum, in which case it
stays frozen; on a differing timestamp the counter resets to 0. -/
def nextCounter (st : UuidState) (now : Nat) : Nat :=
  if now = st.lastTimestamp then
    if st.counter = UUID_COUNTER_MAX then st.counter else st.counter + 1
  else 0

/-- Modelled from the spec: step 4 high-word composition. `now` shifted left
past the version and counter fields, bitwise-ORed with the version tag and
the counter, truncated to the 64-bit machine word. -/
def msbOf (now counter : Nat) : Nat :=
  ((now <<< UUID_TIMESTAMP_SHIFT) ||| (UUID_VERSION_8 <<< UUID_VERSION_SHIFT)
    ||| counter) % 2 ^ 64

/-- Modelled from the spec: step 4 low-word composition. The fixed variant
tag in the top two bits, the random word masked to its low 62 bits below,
truncated to the 64-bit machine word. -/
def lsbOf (rand : Nat) : Nat :=
  ((UUID_VARIANT_RFC4122 <<< UUID_VARIANT_SHIFT) ||| (rand &&& UUID_RANDOM_MASK))
    % 2 ^ 64

/-- Modelled from the spec: the `build()` issuance algorithm of
`UuidBuilder` (not present in this tree). `now` is the millisecond reading
of the time source and `rand` the 64-bit reading of the random source for
this call; the updated (timestamp, counter) state is persisted. -/
def build (now rand : Nat) (st : UuidState) : UUID × UuidState :=
  (⟨msbOf now (nextCounter st now), lsbOf rand⟩, ⟨now, nextCounter st now⟩)

/-- Timestamp field observer used by the tests: `msb >> UUID_TIMESTAMP_SHIFT`. -/
def tsField (u : UUID) : Nat := u.msb >>> UUID_TIMESTAMP_SHIFT

/-- Counter field observer used by the tests: `msb & UUID_COUNTER_MASK`. -/
def ctrField (u : UUID) : Nat := u.msb &&& UUID_COUNTER_MASK

/-- Version field observer used by the tests:
`(msb >> UUID_VERSION_SHIFT) & UUID_VERSION_MASK`. -/
def versionField (u : UUID) : Nat :=
  (u.msb >>> UUID_VERSION_SHIFT) &&& UUID_VERSION_MASK

/-- Variant field observer used by the tests:
`(lsb >> UUID_VARIANT_SHIFT) & UUID_VARIANT_MASK`. -/
def variantField (u : UUID) : Nat :=
  (u.lsb >>> UUID_VARIANT_SHIFT) &&& UUID_VARIANT_MASK

/-- Random field observer used by the tests: `lsb & UUID_RANDOM_MASK`. -/
def randomField (u : UUID) : Nat := u.lsb &&& UUID_RANDOM_MASK

theorem nextCounter_le {st : UuidState} (now : Nat) (hc : st.counter ≤ 4095) :
    nextCounter st now ≤ 4095 := by
  unfold nextCounter UUID_COUNTER_MAX
  split
  · split
    · omega
    · omega
  · omega

theorem msbRaw_eq (now c : Nat) (hc : c ≤ 4095) :
    (now <<< UUID_TIMESTAMP_SHIFT) ||| (UUID_VERSION_8 <<< UUID_VERSION_SHIFT)
      ||| c = now * 2 ^ 16 + 8 * 2 ^ 12 + c := by
  have h12 : (2 : Nat) ^ 12 = 4096 := by norm_num
  have hc' : c < 2 ^ 12 := by omega
  have e1 : (8 : Nat) <<< 12 ||| c = 2 ^ 12 * 8 + c := by
    rw [Nat.shiftLeft_eq, Nat.mul_comm]
    exact (Nat.mul_add_lt_is_or hc' 8).symm
  have hlt : 2 ^ 12 * 8 + c < 2 ^ 16 := by
    have h16 : (2 : Nat) ^ 16 = 65536 := by norm_num
    omega
  have e2 : now <<< 16 ||| (2 ^ 12 * 8 + c) = 2 ^ 16 * now + (2 ^ 12 * 8 + c) := by
    rw [Nat.shiftLeft_eq, Nat.mul_comm]
    exact (Nat.mul_add_lt_is_or hlt now).symm
  simp only [UUID_TIMESTAMP_SHIFT, UUID_VERSION_SHIFT, UUID_VERSION_8]
  rw [Nat.or_assoc, e1, e2]
  ring

theorem msbOf_eq (now c : Nat) (h48 : now < 2 ^ 48) (hc : c ≤ 4095) :
    msbOf now c = now * 2 ^ 16 + 8 * 2 ^ 12 + c := by
  have hbig : now * 2 ^ 16 + 8 * 2 ^ 12 + c < 2 ^ 64 := by
    have h48v : (2 : Nat) ^ 48 = 281474976710656 := by norm_num
    have h64v : (2 : Nat) ^ 64 = 18446744073709551616 := by norm_num
    have h16 : (2 : Nat) ^ 16 = 65536 := by norm_num
    have h12 : (2 : Nat) ^ 12 = 4096 := by norm_num
    have : now * 2 ^ 16 ≤ (2 ^ 48 - 1) * 2 ^ 16 :=
      Nat.mul_le_mul_right _ (by omega)
    omega
  rw [msbOf, msbRaw_eq now c hc, Nat.mod_eq_of_lt hbig]

theorem lsbOf_eq (r : Nat) : lsbOf r = 2 ^ 63 + r % 2 ^ 62 := by
  have hmask : r &&& UUID_RANDOM_MASK = r % 2 ^ 62 := by
    simp only [UUID_RANDOM_MASK]
    exact Nat.and_pow_two_sub_one_eq_mod r 62
  have hr' : r % 2 ^ 62 < 2 ^ 62 := Nat.mod_lt _ (by positivity)
  have e1 : (2 : Nat) <<< 62 ||| r % 2 ^ 62 = 2 ^ 62 * 2 + r % 2 ^ 62 := by
    rw [Nat.shiftLeft_eq, Nat.mul_comm]
    exact (Nat.mul_add_lt_is_or hr' 2).symm
  have hbig : 2 ^ 62 * 2 + r % 2 ^ 62 < 2 ^ 64 := by
    have : (2 : Nat) ^ 62 * 2 + 2 ^ 62 ≤ 2 ^ 64 := by norm_num
    omega
  simp only [lsbOf, UUID_VARIANT_SHIFT, UUID_VARIANT_RFC4122, hmask]
  rw [e1, Nat.mod_eq_of_lt hbig]
  ring

theorem tsField_msbOf (now c l : Nat) (h48 : now < 2 ^ 48) (hc : c ≤ 4095) :
    tsField ⟨msbOf now c, l⟩ = now := by
  simp only [tsField, UUID_TIMESTAMP_SHIFT, msbOf_eq now c h48 hc]
  rw [Nat.shiftRight_eq_div_pow]
  have hsum : now * 2 ^ 16 + 8 * 2 ^ 12 + c = 2 ^ 16 * now + (8 * 2 ^ 12 + c) := by
    ring
  have hlt : 8 * 2 ^ 12 + c < 2 ^ 16 := by norm_num; omega
  rw [hsum, Nat.mul_add_div (by positivity), Nat.div_eq_of_lt hlt]
  omega

theorem ctrField_msbOf (now c l : Nat) (hc : c ≤ 4095) :
    ctrField ⟨msbOf now c, l⟩ = c := by
  have hmask : (0xFFF : Nat) = 2 ^ 12 - 1 := by norm_num
  simp only [ctrField, UUID_COUNTER_MASK, msbOf, hmask,
    Nat.and_pow_two_sub_one_eq_mod]
  rw [Nat.mod_mod_of_dvd _ (by norm_num), msbRaw_eq now c hc]
  have hsum : now * 2 ^ 16 + 8 * 2 ^ 12 + c = 2 ^ 12 * (now * 2 ^ 4 + 8) + c := by
    ring
  rw [hsum, Nat.mul_add_mod]
  exact Nat.mod_eq_of_lt (by omega)

theorem versionField_msbOf (now c l : Nat) (h48 : now < 2 ^ 48) (hc : c ≤ 4095) :
    versionField ⟨msbOf now c, l⟩ = UUID_VERSION_8 := by
  have hmask : (0xF : Nat) = 2 ^ 4 - 1 := by norm_num
  simp only [versionField, UUID_VERSION_SHIFT, UUID_VERSION_MASK, UUID_VERSION_8,
    hmask, msbOf_eq now c h48 hc]
  rw [Nat.shiftRight_eq_div_pow]
  have hsum : now * 2 ^ 16 + 8 * 2 ^ 12 + c = 2 ^ 12 * (now * 2 ^ 4 + 8) + c := by
    ring
  have hc' : c < 2 ^ 12 := by omega
  rw [hsum, Nat.mul_add_div (by positivity), Nat.div_eq_of_lt hc',
    Nat.and_pow_two_sub_one_eq_mod]
  have hsum2 : now * 2 ^ 4 + 8 + 0 = 2 ^ 4 * now + 8 := by ring
  rw [hsum2, Nat.mul_add_mod]
  norm_num

theorem lsbOf_topBits (r : Nat) :
    lsbOf r >>> UUID_VARIANT_SHIFT = UUID_VARIANT_RFC4122 := by
  simp only [UUID_VARIANT_SHIFT, UUID_VARIANT_RFC4122, lsbOf_eq r]
  rw [Nat.shiftRight_eq_div_pow]
  have hr' : r % 2 ^ 62 < 2 ^ 62 := Nat.mod_lt _ (by positivity)
  have hsum : 2 ^ 63 + r % 2 ^ 62 = 2 ^ 62 * 2 + r % 2 ^ 62 := by ring
  rw [hsum, Nat.mul_add_div (by positivity), Nat.div_eq_of_lt hr']

theorem variantField_lsbOf (r l : Nat) :
    variantField ⟨l, lsbOf r⟩ = UUID_VARIANT_RFC4122 := by
  simp only [variantField, lsbOf_topBits r]
  decide

theorem randomField_lsbOf (r l : Nat) :
    randomField ⟨l, lsbOf r⟩ = r &&& UUID_RANDOM_MASK := by
  simp only [randomField, UUID_RANDOM_MASK, lsbOf_eq r,
    Nat.and_pow_two_sub_one_eq_mod]
  have hr' : r % 2 ^ 62 < 2 ^ 62 := Nat.mod_lt _ (by positivity)
  have hsum : 2 ^ 63 + r % 2 ^ 62 = r % 2 ^ 62 + 2 ^ 62 * 2 := by ring
  rw [hsum, Nat.add_mul_mod_self_left, Nat.mod_eq_of_lt hr']

theorem build_fst (now r : Nat) (st : UuidState) :
    (build now r st).1 = ⟨msbOf now (nextCounter st now), lsbOf r⟩ := rfl

theorem build_snd (now r : Nat) (st : UuidState) :
    (build now r st).2 = ⟨now, nextCounter st now⟩ := rfl

theorem nextCounter_of_ne {st : UuidState} {now : Nat}
    (h : now ≠ st.lastTimestamp) : nextCounter st now = 0 := by
  simp [nextCounter, h]

theorem nextCounter_of_eq {st : UuidState} {now : Nat}
    (h : now = st.lastTimestamp) (hc : st.counter ≤ 4095) :
    nextCounter st now = min (st.counter + 1) 4095 := by
  simp only [nextCounter, if_pos h, UUID_COUNTER_MAX]
  split
  · omega
  · omega

theorem nextCounter_ge_of_eq {st : UuidState} {now : Nat}
    (h : now = st.lastTimestamp) : st.counter ≤ nextCounter st now := by
  simp only [nextCounter, if_pos h]
  split
  · omega
  · omega

theorem tsField_build (now r : Nat) (st : UuidState) (h48 : now < 2 ^ 48)
    (hc : st.counter ≤ 4095) : tsField (build now r st).1 = now := by
  rw [build_fst]
  exact tsField_msbOf now _ _ h48 (nextCounter_le now hc)

theorem ctrField_build (now r : Nat) (st : UuidState) (hc : st.counter ≤ 4095) :
    ctrField (build now r st).1 = nextCounter st now := by
  rw [build_fst]
  exact ctrField_msbOf now _ _ (nextCounter_le now hc)

/-- Issue one identifier per input pair `(time reading, random reading)`,
threading the generator state through the calls of one instance. -/
def buildAll (st : UuidState) : List (Nat × Nat) → List UUID
  | [] => []
  | inp :: rest =>
    (build inp.1 inp.2 st).1 :: buildAll (build inp.1 inp.2 st).2 rest

/-- The identifier issued by the `(k+1)`-th `build()` call when every call
reads the same `now` and `rand` from the injected sources. -/
def buildKth (now rand : Nat) (st : UuidState) : Nat → UUID
  | 0 => (build now rand st).1
  | k + 1 => buildKth now rand (build now rand st).2 k

/-- Lexicographic order on the (timestamp field, counter field) pair. -/
def pairLE (a b : UUID) : Prop :=
  tsField a < tsField b ∨ (tsField a = tsField b ∧ ctrField a ≤ ctrField b)

instance (a b : UUID) : Decidable (pairLE a b) := by
  unfold pairLE
  infer_instance

/-- Relation between consecutive (input, output) pairs of an issuance
sequence: a time reading differing from the one recorded at the previous
issuance resets the counter field to 0; an unchanged reading advances it by
exactly 1 up to the 12-bit cap. -/
def issuanceStep (p q : (Nat × Nat) × UUID) : Prop :=
  (q.1.1 ≠ p.1.1 → ctrField q.2 = 0) ∧
  (q.1.1 = p.1.1 → ctrField q.2 = min (ctrField p.2 + 1) 4095)

instance (p q : (Nat × Nat) × UUID) : Decidable (issuanceStep p q) := by
  unfold issuanceStep
  infer_instance

theorem buildAll_chains : ∀ (inputs : List (Nat × Nat)) (st : UuidState),
    st.counter ≤ 4095 →
    List.Chain' (fun p q => p.1 ≤ q.1) inputs →
    (∀ p ∈ inputs, p.1 < 2 ^ 48) →
    List.Chain' pairLE (buildAll st inputs) ∧
    List.Chain' issuanceStep (inputs.zip (buildAll st inputs)) := by
  intro inputs
  induction inputs with
  | nil => intro st _ _ _; simp [buildAll]
  | cons a rest ih =>
    intro st hc hchain hmem
    cases rest with
    | nil => simp [buildAll]
    | cons b l =>
      have ha48 : a.1 < 2 ^ 48 := hmem a (by simp)
      have hb48 : b.1 < 2 ^ 48 := hmem b (by simp)
      have hca : nextCounter st a.1 ≤ 4095 := nextCounter_le _ hc
      have hab : a.1 ≤ b.1 := (List.chain'_cons.mp hchain).1
      have hchain' : List.Chain' (fun p q => p.1 ≤ q.1) (b :: l) :=
        (List.chain'_cons.mp hchain).2
      have hmem' : ∀ p ∈ b :: l, p.1 < 2 ^ 48 := fun p hp =>
        hmem p (List.mem_cons_of_mem a hp)
      obtain ⟨ih1, ih2⟩ := ih (build a.1 a.2 st).2 (by rw [build_snd]; exact hca)
        hchain' hmem'
      have hstA : (build a.1 a.2 st).2 = ⟨a.1, nextCounter st a.1⟩ := build_snd _ _ _
      have htsa : tsField (build a.1 a.2 st).1 = a.1 := tsField_build _ _ _ ha48 hc
      have hctra : ctrField (build a.1 a.2 st).1 = nextCounter st a.1 :=
        ctrField_build _ _ _ hc
      have htsb : tsField (build b.1 b.2 (build a.1 a.2 st).2).1 = b.1 := by
        rw [hstA]; exact tsField_build _ _ _ hb48 hca
      have hctrb : ctrField (build b.1 b.2 (build a.1 a.2 st).2).1
          = nextCounter ⟨a.1, nextCounter st a.1⟩ b.1 := by
        rw [hstA]; exact ctrField_build _ _ _ hca
      constructor
      · simp only [buildAll] at ih1 ⊢
        rw [List.chain'_cons]
        refine ⟨?_, ih1⟩
        rcases Nat.eq_or_lt_of_le hab with heq | hlt
        · right
          refine ⟨by rw [htsa, htsb, heq], ?_⟩
          rw [hctra, hctrb]
          have hge := @nextCounter_ge_of_eq ⟨a.1, nextCounter st a.1⟩ b.1 heq.symm
          exact hge
        · left
          rw [htsa, htsb]
          exact hlt
      · simp only [buildAll, List.zip_cons_cons] at ih2 ⊢
        rw [List.chain'_cons]
        refine ⟨?_, ih2⟩
        constructor
        · intro hne
          rw [hctrb]
          exact @nextCounter_of_ne ⟨a.1, nextCounter st a.1⟩ b.1 hne
        · intro heq
          rw [hctrb, hctra]
          rw [@nextCounter_of_eq ⟨a.1, nextCounter st a.1⟩ b.1 heq hca]

theorem buildKth_ctr_const : ∀ (k : Nat) (st : UuidState) (now r : Nat),
    now = st.lastTimestamp → st.counter ≤ 4095 →
    ctrField (buildKth now r st k) = min (st.counter + 1 + k) 4095 := by
  intro k
  induction k with
  | zero =>
    intro st now r heq hc
    show ctrField (build now r st).1 = _
    rw [ctrField_build now r st hc, nextCounter_of_eq heq hc]
  | succ k ih =>
    intro st now r heq hc
    show ctrField (buildKth now r (build now r st).2 k) = _
    rw [build_snd]
    have hc' : nextCounter st now ≤ 4095 := nextCounter_le now hc
    have hih : ctrField (buildKth now r ⟨now, nextCounter st now⟩ k)
        = min (nextCounter st now + 1 + k) 4095 :=
      ih ⟨now, nextCounter st now⟩ now r rfl hc'
    rw [hih, nextCounter_of_eq heq hc]
    omega

/-- C3: over a sequence of `build()` calls on one generator instance whose
injected time readings are non-decreasing, the (timestamp field, counter
field) pairs of the emitted identifiers are lexicographically non-decreasing
in issuance order; a time reading differing from the timestamp recorded at
the previous issuance yields counter field 0, and an unchanged reading
advances the counter field by exactly 1 up to the 12-bit cap. -/
theorem build_sequence_monotonic (inputs : List (Nat × Nat)) (st : UuidState)
    (hc : st.counter ≤ 4095)
    (hmono : List.Chain' (fun p q => p.1 ≤ q.1) inputs)
    (h48 : ∀ p ∈ inputs, p.1 < 2 ^ 48) :
    List.Chain' pairLE (buildAll st inputs) ∧
    List.Chain' issuanceStep (inputs.zip (buildAll st inputs)) :=
  buildAll_chains inputs st hc hmono h48

/-- Witness for C3 at a concrete three-call sequence: two calls in the same
millisecond tick followed by one in the next tick. -/
theorem build_sequence_monotonic_witness :
    List.Chain' pairLE (buildAll ⟨0, 0⟩ [(5, 1), (5, 2), (6, 3)]) ∧
    List.Chain' issuanceStep
      ([(5, 1), (5, 2), (6, 3)].zip (buildAll ⟨0, 0⟩ [(5, 1), (5, 2), (6, 3)])) :=
  build_sequence_monotonic [(5, 1), (5, 2), (6, 3)] ⟨0, 0⟩ (by decide)
    (by simp [List.chain'_cons]) (by decide)

/-- C4: with a time source frozen at one millisecond value that differs from
the generator's recorded timestamp, the counter field of the `(k+1)`-th
emitted identifier is `min k 4095`: it starts at 0, increments by exactly 1
per call, reaches 4095 on the 4096th call and stays frozen at 4095 on every
further call, neither wrapping to 0 nor carrying into the timestamp bits. -/
theorem counter_saturates_at_max (st : UuidState) (now r k : Nat)
    (hnew : now ≠ st.lastTimestamp) :
    ctrField (buildKth now r st k) = min k 4095 := by
  have h0 : nextCounter st now = 0 := nextCounter_of_ne hnew
  cases k with
  | zero =>
    show ctrField (build now r st).1 = _
    rw [build_fst, h0, ctrField_msbOf now 0 _ (by omega)]
    omega
  | succ k =>
    show ctrField (buildKth now r (build now r st).2 k) = _
    have hkk : ctrField (buildKth now r ⟨now, 0⟩ k) = min (0 + 1 + k) 4095 :=
      buildKth_ctr_const k ⟨now, 0⟩ now r rfl (Nat.zero_le 4095)
    rw [build_snd, h0, hkk]
    omega

/-- Witness for C4 at a concrete frozen timestamp and a small call count. -/
theorem counter_saturates_at_max_witness :
    ctrField (buildKth 1 2 ⟨0, 7⟩ 3) = min 3 4095 :=
  counter_saturates_at_max ⟨0, 7⟩ 1 2 3 (by decide)

/-- C5: every identifier returned by `build()` has the documented bit
layout. The high word is the millisecond reading shifted past the version
and counter fields, bitwise-ORed with the version tag and the counter, in
the 64-bit machine word; shifting the high word right by the timestamp
shift recovers the millisecond reading, the version field is UUID version
8, the top 2 bits of the low word are the RFC 4122 variant tag, and the low
62 bits of the low word are the random reading masked to 62 bits. -/
theorem build_bit_layout (now rand : Nat) (st : UuidState)
    (h48 : now < 2 ^ 48) (hc : st.counter ≤ 4095) :
    (build now rand st).1.msb
      = ((now <<< UUID_TIMESTAMP_SHIFT) ||| (UUID_VERSION_8 <<< UUID_VERSION_SHIFT)
          ||| nextCounter st now) % 2 ^ 64 ∧
    tsField (build now rand st).1 = now ∧
    versionField (build now rand st).1 = UUID_VERSION_8 ∧
    (build now rand st).1.lsb >>> UUID_VARIANT_SHIFT = UUID_VARIANT_RFC4122 ∧
    variantField (build now rand st).1 = UUID_VARIANT_RFC4122 ∧
    randomField (build now rand st).1 = rand &&& UUID_RANDOM_MASK := by
  have hcn : nextCounter st now ≤ 4095 := nextCounter_le now hc
  refine ⟨rfl, ?_, ?_, ?_, ?_, ?_⟩
  · rw [build_fst]
    exact tsField_msbOf now _ _ h48 hcn
  · rw [build_fst]
    exact versionField_msbOf now _ _ h48 hcn
  · rw [build_fst]
    exact lsbOf_topBits rand
  · rw [build_fst]
    exact variantField_lsbOf rand _
  · rw [build_fst]
    exact randomField_lsbOf rand _

/-- Witness for C5 at the fixed timestamp and random value used by the
`CustomTimeAndRandomSource` test. -/
theorem build_bit_layout_witness :
    (1234567890123 : Nat) < 2 ^ 48 ∧
    tsField (build 1234567890123 1311768467294899695 ⟨0, 0⟩).1 = 1234567890123 :=
  ⟨by decide,
    (build_bit_layout 1234567890123 1311768467294899695 ⟨0, 0⟩
      (by decide) (by decide)).2.1⟩

/-! ## UuidBuilder construction modes

Modelled from the spec: `UuidBuilder` (implementation not present in this
tree) exists in a shared/production mode (`getBuilder`) and a
test/independent mode (`getTestBuilder`); only the latter accepts injected
time and random sources or a request for independent state
(`UuidBuilderTest.cpp`, `TestModeOnly`). -/

/-- The precondition-violation signal (`std::domain_error`) raised when a
test-only customization is requested on the shared production builder. -/
inductive UuidBuilderError where
  | domainError
deriving DecidableEq

/-- Modelled from the spec: a `UuidBuilder` records whether it was created
in test mode and which test-only sources or state have been installed. Time
sources are millisecond readings per call index; random sources are 64-bit
readings per call index. -/
structure UuidBuilder where
  testMode : Bool
  timeSource : Option (Nat → Nat)
  randomSource : Option (Nat → Nat)
  independentState : Bool

/-- Modelled from the spec: the shared/production generator accessor. -/
def UuidBuilder.getBuilder : UuidBuilder := ⟨false, none, none, false⟩

/-- Modelled from the spec: the test/independent generator accessor. -/
def UuidBuilder.getTestBuilder : UuidBuilder := ⟨true, none, none, false⟩

/-- Modelled from the spec: `withTimeSource` installs an injected time
source on a test builder and signals a domain error on the shared one. -/
def UuidBuilder.withTimeSource (b : UuidBuilder) (f : Nat → Nat) :
    Except UuidBuilderError UuidBuilder :=
  if b.testMode then .ok { b with timeSource := some f }
  else .error .domainError

/-- Modelled from the spec: `withRandomSource` installs an injected random
source on a test builder and signals a domain error on the shared one. -/
def UuidBuilder.withRandomSource (b : UuidBuilder) (f : Nat → Nat) :
    Except UuidBuilderError UuidBuilder :=
  if b.testMode then .ok { b with randomSource := some f }
  else .error .domainError

/-- Modelled from the spec: `withIndependentState` gives a test builder its
own private generator state and signals a domain error on the shared one. -/
def UuidBuilder.withIndependentState (b : UuidBuilder) :
    Except UuidBuilderError UuidBuilder :=
  if b.testMode then .ok { b with independentState := true }
  else .error .domainError

/-- C7: on the shared/production builder every `withTimeSource`,
`withRandomSource` and `withIndependentState` call fails with the
domain-error precondition-violation signal regardless of the argument,
while the same calls on a test builder succeed and install the injected
source or private state. -/
theorem production_builder_rejects_overrides (f g : Nat → Nat) :
    UuidBuilder.getBuilder.withTimeSource f = .error .domainError ∧
    UuidBuilder.getBuilder.withRandomSource g = .error .domainError ∧
    UuidBuilder.getBuilder.withIndependentState = .error .domainError ∧
    UuidBuilder.getTestBuilder.withTimeSource f
      = .ok { UuidBuilder.getTestBuilder with timeSource := some f } ∧
    UuidBuilder.getTestBuilder.withRandomSource g
      = .ok { UuidBuilder.getTestBuilder with randomSource := some g } ∧
    UuidBuilder.getTestBuilder.withIndependentState
      = .ok { UuidBuilder.getTestBuilder with independentState := true } :=
  ⟨rfl, rfl, rfl, rfl, rfl, rfl⟩

/-! ## Transport contract layer and its test double

The hook-side state and behavior are translated from
`test/include/UTransportMock.h`. The contract layer (`UTransport::send`,
`UTransport::registerListener`, `ListenerHandle`) is modelled from the
spec, since `UTransport.h` itself is not present in this tree.

A `CallableConn` is an identity-comparable shared handle to a registered
callback; it is represented by its identity token, and the set of tokens
whose callback is still live is carried in the world state so that every
copy of a handle observes invalidation. -/

/-- Identity token of a type-erased callback connection. Equality of
`CallableConn` values is identity of the wrapped callback. -/
abbrev CallableConn := Nat

/-- Status value (`v1::UStatus`): numeric result code plus message. -/
structure UStatus where
  code : Nat
  message : String
deriving DecidableEq, Repr

/-- Code `v1::UCode::OK`. -/
def UCODE_OK : Nat := 0

/-- Code `v1::UCode::RESOURCE_EXHAUSTED`. -/
def UCODE_RESOURCE_EXHAUSTED : Nat := 8

/-- Helper `UTransportMock::okStatus()`: a status with code OK and default
(empty) message. -/
def okStatus : UStatus := ⟨UCODE_OK, ""⟩

/-- A structured URI value (`v1::UUri`), an external collaborator: the
transport core only forwards these. -/
structure UUri where
  authorityName : String
  ueId : Nat
  ueVersionMajor : Nat
  resourceId : Nat
deriving DecidableEq, Repr

/-- A message envelope (`v1::UMessage`); the transport core treats the body
as opaque bytes, modelled here as the payload string. -/
structure UMessage where
  payload : String
deriving DecidableEq, Repr

/-- The mutable members of `UTransportMock` (UTransportMock.h lines 40-58). -/
structure UTransportMockState where
  next_send_status : Option UStatus
  next_listen_status : Option UStatus
  send_count : Nat
  last_sent_message : Option UMessage
  register_count : Nat
  last_listener : Option CallableConn
  last_source_filter : Option UUri
  last_sink_filter : Option UUri
  cleanup_count : Nat
  last_cleanup_listener : Option CallableConn
deriving DecidableEq, Repr

/-- World state threading the contract layer and the mock: the next fresh
connection identity token, the tokens whose callback is still live, and the
mock's members. -/
structure TransportWorld where
  nextToken : Nat
  live : List Nat
  mock : UTransportMockState
deriving DecidableEq, Repr

/-- Boolean conversion of a `CallableConn`: true while the wrapped callback
is still live (has not been severed by invalidation or cleanup). -/
def connIsLive (w : TransportWorld) (c : CallableConn) : Bool :=
  w.live.contains c

/-- Hook `UTransportMock::sendImpl` (UTransportMock.h lines 71-78): counts the
call, records the message, returns the pre-set override status if present
(clearing it) and an OK status otherwise. -/
def sendImpl (w : TransportWorld) (message : UMessage) : UStatus × TransportWorld :=
  let m1 := { w.mock with
    send_count := w.mock.send_count + 1,
    last_sent_message := some message }
  let status := match m1.next_send_status with
    | some s => s
    | none => okStatus
  let m2 := match m1.next_send_status with
    | some _ => { m1 with next_send_status := none }
    | none => m1
  (status, { w with mock := m2 })

/-- Hook `UTransportMock::registerListenerImpl` (UTransportMock.h lines 80-91):
counts the call, records the listener and filters, returns the pre-set
override status if present (clearing it) and an OK status otherwise. -/
def registerListenerImpl (w : TransportWorld) (sink : UUri)
    (listener : CallableConn) (source : Option UUri) :
    UStatus × TransportWorld :=
  let m1 := { w.mock with
    register_count := w.mock.register_count + 1,
    last_listener := some listener,
    last_source_filter := source,
    last_sink_filter := some sink }
  let status := match m1.next_listen_status with
    | some s => s
    | none => okStatus
  let m2 := match m1.next_listen_status with
    | some _ => { m1 with next_listen_status := none }
    | none => m1
  (status, { w with mock := m2 })

/-- Hook `UTransportMock::cleanupListener` (UTransportMock.h lines 93-96):
counts the call and records the connection it was handed. -/
def cleanupListener (w : TransportWorld) (listener : CallableConn) :
    TransportWorld :=
  { w with mock := { w.mock with
      cleanup_count := w.mock.cleanup_count + 1,
      last_cleanup_listener := some listener } }

/-- Modelled from the spec: `UTransport::send` delegates the message to the
implementation-supplied send hook and returns whatever status the hook
returns, with no translation. -/
def send (w : TransportWorld) (message : UMessage) : UStatus × TransportWorld :=
  sendImpl w message

/-- An owning, move-only handle to a registered listener; `none` means the
handle is inert (released, moved-from, or default). -/
structure ListenerHandle where
  conn : Option CallableConn
deriving DecidableEq, Repr

/-- Modelled from the spec: `UTransport::registerListener` wraps the
callback in a fresh live `CallableConn`, passes filters and the connection
to the register hook, and returns an owning handle exactly when the hook
reports success; on failure the hook's status is returned verbatim and the
constructed connection is invalidated. -/
def registerListener (w : TransportWorld) (sink : UUri) (source : Option UUri) :
    Except UStatus ListenerHandle × TransportWorld :=
  let t := w.nextToken
  let w1 : TransportWorld :=
    { w with nextToken := t + 1, live := t :: w.live }
  let r := registerListenerImpl w1 sink t source
  if r.1.code = UCODE_OK then
    (.ok ⟨some t⟩, r.2)
  else
    (.error r.1, { r.2 with live := r.2.live.filter (fun x => x ≠ t) })

/-- Modelled from the spec: releasing (or destroying) a `ListenerHandle`
marks the handle inert, invokes the cleanup hook with the very connection
that was registered, and invalidates the stored connection; on an inert
handle it is a no-op. -/
def releaseHandle (w : TransportWorld) (h : ListenerHandle) :
    ListenerHandle × TransportWorld :=
  match h.conn with
  | none => (h, w)
  | some t =>
    let w1 := cleanupListener w t
    (⟨none⟩, { w1 with live := w1.live.filter (fun x => x ≠ t) })

/-- Modelled from the spec: moving a `ListenerHandle` transfers the cleanup
responsibility to the destination and leaves the source inert. -/
def moveHandle (h : ListenerHandle) : ListenerHandle × ListenerHandle :=
  (⟨h.conn⟩, ⟨none⟩)

/-- One thing a caller can do with a live handle during its lifetime. -/
inductive HandleAction where
  | release
  | move
deriving DecidableEq, Repr

/-- Run one action: `release` releases the handle; `move` moves it to a
fresh handle and then destroys the moved-from source. -/
def runAction (w : TransportWorld) (h : ListenerHandle) :
    HandleAction → ListenerHandle × TransportWorld
  | .release => releaseHandle w h
  | .move =>
    let p := moveHandle h
    let q := releaseHandle w p.2
    (p.1, q.2)

/-- Run a sequence of lifetime actions, threading handle and world. -/
def runActions (w : TransportWorld) (h : ListenerHandle) :
    List HandleAction → ListenerHandle × TransportWorld
  | [] => (h, w)
  | a :: rest =>
    runActions (runAction w h a).2 (runAction w h a).1 rest

theorem rli_fst (w : TransportWorld) (sink : UUri) (t : CallableConn)
    (src : Option UUri) :
    (registerListenerImpl w sink t src).1
      = w.mock.next_listen_status.getD okStatus := by
  cases h : w.mock.next_listen_status <;> simp [registerListenerImpl, h]

theorem rli_cleanup_count (w : TransportWorld) (sink : UUri) (t : CallableConn)
    (src : Option UUri) :
    (registerListenerImpl w sink t src).2.mock.cleanup_count
      = w.mock.cleanup_count := by
  cases h : w.mock.next_listen_status <;> simp [registerListenerImpl, h]

theorem rli_last_cleanup (w : TransportWorld) (sink : UUri) (t : CallableConn)
    (src : Option UUri) :
    (registerListenerImpl w sink t src).2.mock.last_cleanup_listener
      = w.mock.last_cleanup_listener := by
  cases h : w.mock.next_listen_status <;> simp [registerListenerImpl, h]

theorem rli_last_listener (w : TransportWorld) (sink : UUri) (t : CallableConn)
    (src : Option UUri) :
    (registerListenerImpl w sink t src).2.mock.last_listener = some t := by
  cases h : w.mock.next_listen_status <;> simp [registerListenerImpl, h]

theorem rli_register_count (w : TransportWorld) (sink : UUri) (t : CallableConn)
    (src : Option UUri) :
    (registerListenerImpl w sink t src).2.mock.register_count
      = w.mock.register_count + 1 := by
  cases h : w.mock.next_listen_status <;> simp [registerListenerImpl, h]

theorem rli_live (w : TransportWorld) (sink : UUri) (t : CallableConn)
    (src : Option UUri) :
    (registerListenerImpl w sink t src).2.live = w.live := rfl

theorem runAction_inert (a : HandleAction) (w : TransportWorld) :
    runAction w ⟨none⟩ a = (⟨none⟩, w) := by
  cases a <;> rfl

theorem runActions_inert : ∀ (acts : List HandleAction) (w : TransportWorld),
    runActions w ⟨none⟩ acts = (⟨none⟩, w) := by
  intro acts
  induction acts with
  | nil => intro w; rfl
  | cons a rest ih =>
    intro w
    show runActions (runAction w ⟨none⟩ a).2 (runAction w ⟨none⟩ a).1 rest = _
    rw [runAction_inert]
    exact ih w

theorem runActions_no_release : ∀ (acts : List HandleAction) (w : TransportWorld)
    (t : CallableConn), HandleAction.release ∉ acts →
    runActions w ⟨some t⟩ acts = (⟨some t⟩, w) := by
  intro acts
  induction acts with
  | nil => intro w t _; rfl
  | cons a rest ih =>
    intro w t hno
    have ha : a ≠ HandleAction.release := fun h => hno (h ▸ List.mem_cons_self a rest)
    have hrest : HandleAction.release ∉ rest := fun h => hno (List.mem_cons_of_mem a h)
    cases a with
    | release => exact absurd rfl ha
    | move =>
      show runActions (runAction w ⟨some t⟩ .move).2 (runAction w ⟨some t⟩ .move).1 rest = _
      have : runAction w ⟨some t⟩ .move = (⟨some t⟩, w) := rfl
      rw [this]
      exact ih w t hrest

theorem runActions_invariant : ∀ (acts : List HandleAction) (w : TransportWorld)
    (t : CallableConn),
    ((runActions w ⟨some t⟩ acts).1 = ⟨some t⟩ ∧
      (runActions w ⟨some t⟩ acts).2.mock.cleanup_count = w.mock.cleanup_count ∧
      (runActions w ⟨some t⟩ acts).2.mock.last_cleanup_listener
        = w.mock.last_cleanup_listener) ∨
    ((runActions w ⟨some t⟩ acts).1 = ⟨none⟩ ∧
      (runActions w ⟨some t⟩ acts).2.mock.cleanup_count = w.mock.cleanup_count + 1 ∧
      (runActions w ⟨some t⟩ acts).2.mock.last_cleanup_listener = some t) := by
  intro acts
  induction acts with
  | nil => intro w t; exact Or.inl ⟨rfl, rfl, rfl⟩
  | cons a rest ih =>
    intro w t
    cases a with
    | release =>
      have hstep : runAction w ⟨some t⟩ .release
          = (⟨none⟩, (releaseHandle w ⟨some t⟩).2) := rfl
      simp only [runActions]
      rw [hstep, runActions_inert]
      exact Or.inr ⟨rfl, rfl, rfl⟩
    | move =>
      have hstep : runAction w ⟨some t⟩ .move = (⟨some t⟩, w) := rfl
      simp only [runActions]
      rw [hstep]
      exact ih w t

theorem cleanup_after_lifetime (W2 W : TransportWorld) (t : CallableConn)
    (acts : List HandleAction)
    (hcc : W2.mock.cleanup_count = W.mock.cleanup_count)
    (hll : W2.mock.last_listener = some t) :
    (releaseHandle (runActions W2 ⟨some t⟩ acts).2
        (runActions W2 ⟨some t⟩ acts).1).2.mock.cleanup_count
      = W.mock.cleanup_count + 1 ∧
    (releaseHandle (runActions W2 ⟨some t⟩ acts).2
        (runActions W2 ⟨some t⟩ acts).1).2.mock.last_cleanup_listener
      = W2.mock.last_listener := by
  rcases runActions_invariant acts W2 t with hleft | hright
  · rw [hleft.1]
    constructor
    · show (runActions W2 ⟨some t⟩ acts).2.mock.cleanup_count + 1 = _
      rw [hleft.2.1, hcc]
    · show (some t : Option CallableConn) = _
      rw [hll]
  · rw [hright.1]
    constructor
    · show (runActions W2 ⟨some t⟩ acts).2.mock.cleanup_count = _
      rw [hright.2.1, hcc]
    · show (runActions W2 ⟨some t⟩ acts).2.mock.last_cleanup_listener = _
      rw [hright.2.2, hll]

/-- C1: for every `registerListener` call whose register hook reports
success, the returned handle owns the very connection that was passed to
the register hook; registration performs no cleanup; no cleanup occurs
before the first release; and over any sequence of release/move actions
followed by destruction the cleanup hook runs exactly once, receiving a
connection equal to the one passed to the register hook — repeated release,
destruction after release, and moving before release add no invocation. -/
theorem registerListener_success_cleanup_exactly_once
    (w : TransportWorld) (sink : UUri) (source : Option UUri)
    (acts : List HandleAction) (h : ListenerHandle) (w1 : TransportWorld)
    (hreg : registerListener w sink source = (.ok h, w1)) :
    w1.mock.cleanup_count = w.mock.cleanup_count ∧
    h.conn = some w.nextToken ∧
    w1.mock.last_listener = some w.nextToken ∧
    (HandleAction.release ∉ acts →
      (runActions w1 h acts).2.mock.cleanup_count = w.mock.cleanup_count) ∧
    (releaseHandle (runActions w1 h acts).2
        (runActions w1 h acts).1).2.mock.cleanup_count
      = w.mock.cleanup_count + 1 ∧
    (releaseHandle (runActions w1 h acts).2
        (runActions w1 h acts).1).2.mock.last_cleanup_listener
      = w1.mock.last_listener := by
  simp only [registerListener] at hreg
  split at hreg
  case isFalse hok =>
    simp at hreg
  case isTrue hok =>
    simp only [Prod.mk.injEq, Except.ok.injEq] at hreg
    obtain ⟨he, hw⟩ := hreg
    subst hw
    subst he
    refine ⟨rli_cleanup_count _ _ _ _, rfl, rli_last_listener _ _ _ _, ?_, ?_, ?_⟩
    · intro hno
      rw [runActions_no_release acts _ _ hno]
      exact rli_cleanup_count _ _ _ _
    · exact (cleanup_after_lifetime
        ((registerListenerImpl { w with nextToken := w.nextToken + 1, live := w.nextToken :: w.live } sink w.nextToken source).2)
        w w.nextToken acts
        (rli_cleanup_count _ _ _ _) (rli_last_listener _ _ _ _)).1
    · exact (cleanup_after_lifetime
        ((registerListenerImpl { w with nextToken := w.nextToken + 1, live := w.nextToken :: w.live } sink w.nextToken source).2)
        w w.nextToken acts
        (rli_cleanup_count _ _ _ _) (rli_last_listener _ _ _ _)).2

/-- C2: when the register hook returns a non-OK status, the caller receives
exactly that status and no handle, the connection that was handed to the
register hook is left invalidated (it converts to false), and the cleanup
hook is not invoked. -/
theorem registerListener_failure_no_cleanup
    (w : TransportWorld) (sink : UUri) (source : Option UUri) (s : UStatus)
    (hset : w.mock.next_listen_status = some s) (hns : s.code ≠ UCODE_OK) :
    (registerListener w sink source).1 = .error s ∧
    (registerListener w sink source).2.mock.cleanup_count
      = w.mock.cleanup_count ∧
    (registerListener w sink source).2.mock.last_listener
      = some w.nextToken ∧
    connIsLive (registerListener w sink source).2 w.nextToken = false ∧
    (registerListener w sink source).2.mock.register_count
      = w.mock.register_count + 1 := by
  simp only [registerListener, registerListenerImpl, connIsLive, hset]
  rw [if_neg hns]
  refine ⟨rfl, rfl, rfl, ?_, rfl⟩
  simp [List.contains, List.elem_eq_mem, List.mem_filter]

/-- C6: `send` hands the hook a message equal to the caller's, returns
exactly the status the hook produced (the pre-set override if present,
otherwise OK) with no translation, and bumps the attempt counter by one. -/
theorem send_delegates_verbatim (w : TransportWorld) (msg : UMessage) :
    (send w msg).1 = w.mock.next_send_status.getD okStatus ∧
    (send w msg).2.mock.send_count = w.mock.send_count + 1 ∧
    (send w msg).2.mock.last_sent_message = some msg := by
  cases h : w.mock.next_send_status <;> simp [send, sendImpl, h]

/-- C8: the mock's pre-set override statuses are one-shot. A hook call that
finds an override returns it and clears it, so the immediately following
call returns OK; with no override set, the hooks return OK. -/
theorem mock_override_status_one_shot (w : TransportWorld) (msg msg2 : UMessage)
    (sink : UUri) (src : Option UUri) (t t2 : CallableConn) :
    (sendImpl w msg).1 = w.mock.next_send_status.getD okStatus ∧
    (sendImpl w msg).2.mock.next_send_status = none ∧
    (sendImpl (sendImpl w msg).2 msg2).1 = okStatus ∧
    (registerListenerImpl w sink t src).1
      = w.mock.next_listen_status.getD okStatus ∧
    (registerListenerImpl w sink t src).2.mock.next_listen_status = none ∧
    (registerListenerImpl (registerListenerImpl w sink t src).2 sink t2 src).1
      = okStatus := by
  cases hs : w.mock.next_send_status <;> cases hl : w.mock.next_listen_status <;>
    simp [sendImpl, registerListenerImpl, hs, hl]

/-- The mock's members at construction: counters zero, no recorded values,
no overrides. -/
def mock0 : UTransportMockState := ⟨none, none, 0, none, 0, none, none, none, 0, none⟩

/-- A fresh world around a newly constructed mock. -/
def world0 : TransportWorld := ⟨0, [], mock0⟩

/-- A concrete sink filter for witness scenarios. -/
def demoUri : UUri := ⟨"a", 1, 1, 1⟩

/-- A lifetime with a move before release and a duplicate release. -/
def demoActs : List HandleAction := [HandleAction.move, HandleAction.release, HandleAction.release]

/-- The world after a successful registration on a fresh mock. -/
def world1 : TransportWorld := (registerListener world0 demoUri none).2

/-- Witness for C1: a concrete successful registration, moved then released
twice then destroyed, yields exactly one cleanup invocation. -/
theorem registerListener_success_cleanup_exactly_once_witness :
    (releaseHandle (runActions world1 ⟨some 0⟩ demoActs).2
        (runActions world1 ⟨some 0⟩ demoActs).1).2.mock.cleanup_count
      = world0.mock.cleanup_count + 1 :=
  (registerListener_success_cleanup_exactly_once world0 demoUri none demoActs
    ⟨some 0⟩ world1 rfl).2.2.2.2.1

/-- A world whose mock has a pre-set failing registration status, as in the
`RegisterListenerNotOk` test. -/
def errStatus : UStatus :=
  ⟨UCODE_RESOURCE_EXHAUSTED, "Pretend resources have been exhausted"⟩

def worldErr : TransportWorld :=
  ⟨0, [], { mock0 with next_listen_status := some errStatus }⟩

/-- Witness for C2: a concrete failing registration returns the pre-set
status and leaves the handed-over connection invalidated. -/
theorem registerListener_failure_no_cleanup_witness :
    (registerListener worldErr demoUri none).1 = .error errStatus ∧
    connIsLive (registerListener worldErr demoUri none).2 worldErr.nextToken
      = false :=
  ⟨(registerListener_failure_no_cleanup worldErr demoUri none errStatus
      rfl (by decide)).1,
   (registerListener_failure_no_cleanup worldErr demoUri none errStatus
      rfl (by decide)).2.2.2.1⟩

/-! ## UPayload

Translated from `include/up-cpp/transport/datamodel/UPayload.h`. The
`shared_ptr<const vector<uint8_t>>` data member is modelled as an optional
byte list, `none` standing for a null pointer. -/

/-- Enum `UPayloadType` (UPayload.h lines 35-40). -/
inductive UPayloadType where
  | VALUE
  | REFERENCE
  | SHARED
  | UNDEFINED
deriving DecidableEq, Repr

/-- Enum `UPayloadFormat` (UPayload.h lines 43-52). -/
inductive UPayloadFormat where
  | UNSPECIFIED
  | PROTOBUF_WRAPPED_IN_ANY
  | PROTOBUF
  | JSON
  | SOMEIP
  | SOMEIP_TLV
  | RAW
  | TEXT
deriving DecidableEq, Repr

/-- The members of `UPayload` (UPayload.h lines 144-147). -/
structure UPayload where
  dataPtr : Option (List Nat)
  ptype : UPayloadType
  payloadFormat : UPayloadFormat
deriving DecidableEq, Repr

/-- Observer `UPayload::size` (UPayload.h lines 123-128): the byte count behind the
pointer if it is non-null, 0 otherwise. -/
def UPayload.size (p : UPayload) : Nat :=
  match p.dataPtr with
  | some d => d.length
  | none => 0

/-- Observer `UPayload::isEmpty` (UPayload.h lines 137-142): emptiness of the bytes
behind the pointer if it is non-null, true otherwise. -/
def UPayload.isEmpty (p : UPayload) : Bool :=
  match p.dataPtr with
  | some d => d.isEmpty
  | none => true

/-- The `UPayload` move constructor (UPayload.h lines 95-99): the destination
steals the data pointer (leaving the source's null) and copies type and
format; the source is then set to UNDEFINED type and UNSPECIFIED format.
Returns (destination, moved-from source). -/
def UPayload.moveCtor (other : UPayload) : UPayload × UPayload :=
  (⟨other.dataPtr, other.ptype, other.payloadFormat⟩,
   ⟨none, .UNDEFINED, .UNSPECIFIED⟩)

/-- The `UPayload` move assignment, `this != &other` branch (UPayload.h lines
102-111): same transfer as the move constructor, overwriting the target.
Returns (assigned-to target, moved-from source). -/
def UPayload.moveAssign (_self other : UPayload) : UPayload × UPayload :=
  (⟨other.dataPtr, other.ptype, other.payloadFormat⟩,
   ⟨none, .UNDEFINED, .UNSPECIFIED⟩)

/-- C9: the observers are total on a null data pointer — `size` returns 0
and `isEmpty` returns true rather than dereferencing — and moving a
`UPayload` leaves the moved-from object with a null data pointer, type
UNDEFINED and format UNSPECIFIED, so the observers stay safe on it. -/
theorem upayload_observers_total_on_null (p q : UPayload)
    (hnull : p.dataPtr = none) :
    p.size = 0 ∧
    p.isEmpty = true ∧
    (UPayload.moveCtor q).2 = ⟨none, .UNDEFINED, .UNSPECIFIED⟩ ∧
    (UPayload.moveAssign p q).2 = ⟨none, .UNDEFINED, .UNSPECIFIED⟩ ∧
    (UPayload.moveCtor q).2.size = 0 ∧
    (UPayload.moveCtor q).2.isEmpty = true ∧
    (UPayload.moveCtor q).1.dataPtr = q.dataPtr := by
  refine ⟨?_, ?_, rfl, rfl, rfl, rfl, rfl⟩
  · rw [UPayload.size, hnull]
  · rw [UPayload.isEmpty, hnull]

/-- Witness for C9 at a concrete null-pointer payload and a concrete
moved-from source. -/
theorem upayload_observers_total_on_null_witness :
    (UPayload.mk none UPayloadType.UNDEFINED UPayloadFormat.RAW).size = 0 ∧
    (UPayload.moveCtor ⟨some [1, 2], UPayloadType.VALUE, UPayloadFormat.RAW⟩).2
      = ⟨none, .UNDEFINED, .UNSPECIFIED⟩ :=
  ⟨(upayload_observers_total_on_null ⟨none, .UNDEFINED, .RAW⟩
      ⟨some [1, 2], .VALUE, .RAW⟩ rfl).1,
   (upayload_observers_total_on_null ⟨none, .UNDEFINED, .RAW⟩
      ⟨some [1, 2], .VALUE, .RAW⟩ rfl).2.2.1⟩

/-! ## BaseSafeMap copy/move construction locking

Translated from `include/up-cpp/utils/SafeMap.h`. The copy and move
constructors of `BaseSafeMap` hand a lock object on the source's shared
mutex to the `detail::CopyMoveCtorLocker` base, which constructs the
underlying map and then throws `std::invalid_argument` exactly when the
lock does not own the mutex. Whether lock acquisition succeeded is the
`owns_lock()` state of the lock object, supplied here as an input. -/

/-- Locking mode of a lock object: `std::shared_lock` or
`std::unique_lock` on the source's `shared_mutex`. -/
inductive LockMode where
  | sharedMode
  | exclusiveMode
deriving DecidableEq, Repr

/-- A lock object on the source's mutex: its mode and its `owns_lock()`
state. -/
structure LockObj where
  mode : LockMode
  owns_lock : Bool
deriving DecidableEq, Repr

/-- The exception thrown by `check_lock`: `std::invalid_argument`. -/
inductive SafeMapCtorError where
  | invalidArgument
deriving DecidableEq, Repr

/-- Method `detail::CopyMoveCtorLocker::check_lock` (SafeMap.h lines 441-445):
throws `std::invalid_argument` when the lock does not own the mutex. -/
def check_lock (l : LockObj) : Except SafeMapCtorError Unit :=
  if !l.owns_lock then .error .invalidArgument else .ok ()

/-- A `BaseSafeMap` wrapping an underlying map value of type `M`. -/
structure BaseSafeMap (M : Type) where
  map : M

/-- The `detail::CopyMoveCtorLocker` locking constructors (SafeMap.h lines
424-435): construct the underlying map from the forwarded source, then
`check_lock` the held lock. -/
def cmcLockingCtor {M : Type} (l : LockObj) (m : M) :
    Except SafeMapCtorError M :=
  match check_lock l with
  | .ok _ => .ok m
  | .error e => .error e

/-- The `detail::CopyMoveCtorLocker` non-locking forwarding constructor
(SafeMap.h lines 420-421): forwards to the map's constructor, no lock. -/
def cmcForwardingCtor {M : Type} (m : M) : M := m

/-- The `BaseSafeMap` locking copy constructor (SafeMap.h lines 198-200):
passes a shared-mode lock object on `other`'s mutex to the locking base
constructor while the map is copied. `acquired` is the resulting
`owns_lock()` state of that lock object. -/
def baseSafeMapCopyCtor {M : Type} (other : BaseSafeMap M) (acquired : Bool) :
    LockObj × Except SafeMapCtorError (BaseSafeMap M) :=
  let l : LockObj := ⟨.sharedMode, acquired⟩
  (l, (cmcLockingCtor l other.map).map BaseSafeMap.mk)

/-- The `BaseSafeMap` locking move constructor (SafeMap.h lines 214-216):
passes an exclusive-mode lock object on `other`'s mutex to the locking
base constructor while the map is moved. -/
def baseSafeMapMoveCtor {M : Type} (other : BaseSafeMap M) (acquired : Bool) :
    LockObj × Except SafeMapCtorError (BaseSafeMap M) :=
  let l : LockObj := ⟨.exclusiveMode, acquired⟩
  (l, (cmcLockingCtor l other.map).map BaseSafeMap.mk)

/-- The `BaseSafeMap` non-locking forwarding constructor (SafeMap.h lines
192-193): forwards the arguments to the underlying map type, takes no lock
and cannot throw. -/
def baseSafeMapForwardingCtor {M : Type} (m : M) : BaseSafeMap M :=
  ⟨cmcForwardingCtor m⟩

/-- C10: copy construction from another `BaseSafeMap` uses a shared-mode
lock on the source's mutex and move construction an exclusive-mode one;
each throws `std::invalid_argument` exactly when the lock does not own the
mutex and otherwise yields the source's map; construction from
non-`BaseSafeMap` arguments forwards to the underlying map's constructor
with no lock and cannot throw. -/
theorem safemap_ctor_locking (M : Type) (other : BaseSafeMap M)
    (acquired : Bool) (m : M) :
    (baseSafeMapCopyCtor other acquired).1.mode = LockMode.sharedMode ∧
    (baseSafeMapMoveCtor other acquired).1.mode = LockMode.exclusiveMode ∧
    (baseSafeMapCopyCtor other acquired).2
      = (if acquired then .ok ⟨other.map⟩ else .error .invalidArgument) ∧
    (baseSafeMapMoveCtor other acquired).2
      = (if acquired then .ok ⟨other.map⟩ else .error .invalidArgument) ∧
    baseSafeMapForwardingCtor m = ⟨m⟩ := by
  cases acquired <;>
    exact ⟨rfl, rfl, rfl, rfl, rfl⟩
